import Mathlib

namespace VirusProtocol

/-!
Verification of the cluster coordination layer of the virus-protocol service:
health classification, worker selection and scoring (src/middleware/loadBalancer.ts),
tiered admission control (src/middleware/rateLimiter.ts), and the shared
backlog drainer (src/services/virusProtocol.ts).  Each TypeScript function is
shallowly embedded as a Lean definition; fractions of machine floats are
modelled as rationals, timestamps as integers (milliseconds), redis lists as
Lean lists.
-/

/-! ## Load balancer model (src/middleware/loadBalancer.ts) -/

/-- Health classification tier, the string union
healthy | degraded | unhealthy of ServiceHealth.status. -/
inductive HealthStatus where
  | healthy
  | degraded
  | unhealthy
  deriving DecidableEq, Repr

open HealthStatus

/-- Constant HEALTH_CHECK_INTERVAL = 30000 milliseconds (30 seconds). -/
def HEALTH_CHECK_INTERVAL : ℕ := 30000

/-- Constant WORKER_TIMEOUT = 60000 milliseconds (1 minute). -/
def WORKER_TIMEOUT : ℤ := 60000

/-- Constant MAX_JOBS_PER_WORKER = 100. -/
def MAX_JOBS_PER_WORKER : ℕ := 100

/-- Constant MAX_WS_CONNECTIONS = 1000. -/
def MAX_WS_CONNECTIONS : ℕ := 1000

/-- ServiceHealth record: cpu and memory are fractional loads, plus the
derived classification and the counter snapshot. -/
structure ServiceHealth where
  cpu : ℚ
  memory : ℚ
  status : HealthStatus
  wsConnections : ℕ
  queueLength : ℕ
  processingJobs : ℕ
  deriving DecidableEq, Repr

/-- WorkerStatus record kept per instance in the workers hash. -/
structure WorkerStatus where
  workerId : String
  health : ServiceHealth
  activeJobs : ℕ
  lastHeartbeat : ℤ
  deriving DecidableEq, Repr

/-- determineHealthStatus, mirrored from loadBalancer.ts lines 139-161:
first branch unhealthy, second degraded, fallthrough healthy. -/
def determineHealthStatus (cpu memory : ℚ) (wsConnections processingJobs : ℕ) :
    HealthStatus :=
  if cpu > 9/10 ∨ memory > 9/10 ∨ wsConnections > MAX_WS_CONNECTIONS ∨
      processingJobs > MAX_JOBS_PER_WORKER then
    .unhealthy
  else if cpu > 7/10 ∨ memory > 7/10 ∨
      (wsConnections : ℚ) > (MAX_WS_CONNECTIONS : ℚ) * (8/10) ∨
      (processingJobs : ℚ) > (MAX_JOBS_PER_WORKER : ℚ) * (8/10) then
    .degraded
  else .healthy

/-- canAcceptConnection, mirrored from loadBalancer.ts lines 170-176:
status not unhealthy and strictly fewer than MAX_WS_CONNECTIONS open
connections, evaluated on the freshly sampled health snapshot. -/
def canAcceptConnection (cpu memory : ℚ) (wsConnections processingJobs : ℕ) :
    Bool :=
  (determineHealthStatus cpu memory wsConnections processingJobs ≠ .unhealthy) &&
    (wsConnections < MAX_WS_CONNECTIONS)

/-- calculateWorkerScore, mirrored from loadBalancer.ts lines 231-245. -/
def calculateWorkerScore (status : WorkerStatus) : ℚ :=
  let healthScore : ℚ := if status.health.status = .healthy then 1 else 1/2
  let loadScore : ℚ := 1 - (status.activeJobs : ℚ) / (MAX_JOBS_PER_WORKER : ℚ)
  let cpuScore : ℚ := 1 - status.health.cpu
  let memoryScore : ℚ := 1 - status.health.memory
  let wsScore : ℚ :=
    1 - (status.health.wsConnections : ℚ) / (MAX_WS_CONNECTIONS : ℚ)
  healthScore * (3/10) + loadScore * (2/10) + cpuScore * (2/10) +
    memoryScore * (2/10) + wsScore * (1/10)

/-- Filter predicate of getOptimalWorker (loadBalancer.ts lines 210-215):
not unhealthy and heartbeat strictly within WORKER_TIMEOUT. -/
def workerIsActive (now : ℤ) (status : WorkerStatus) : Bool :=
  (status.health.status ≠ HealthStatus.unhealthy : Bool) &&
    (now - status.lastHeartbeat < WORKER_TIMEOUT : Bool)

/-- Reducer of getOptimalWorker (loadBalancer.ts lines 226-228): keep the
current candidate only on a strictly greater score. -/
def pickBetter (best current : String × ℚ) : String × ℚ :=
  if current.2 > best.2 then current else best

/-- getOptimalWorker, mirrored from loadBalancer.ts lines 199-229:
empty registry returns null, otherwise filter to active workers, score them
and reduce with pickBetter. -/
def getOptimalWorker (now : ℤ) (workers : List (String × WorkerStatus)) :
    Option String :=
  if workers.isEmpty then none
  else
    let activeWorkers := workers.filter (fun w => workerIsActive now w.2)
    match activeWorkers.map (fun w => (w.1, calculateWorkerScore w.2)) with
    | [] => none
    | h :: t => some (t.foldl pickBetter h).1

/-- Healthy idle sample instance used to instantiate proved properties. -/
def workerA : WorkerStatus :=
  { workerId := "A"
    health := { cpu := 0, memory := 0, status := .healthy,
                wsConnections := 0, queueLength := 0, processingJobs := 0 }
    activeJobs := 0
    lastHeartbeat := 0 }

/-- Degraded half-loaded sample instance used to instantiate proved
properties. -/
def workerB : WorkerStatus :=
  { workerId := "B"
    health := { cpu := 1/2, memory := 1/2, status := .degraded,
                wsConnections := 0, queueLength := 0, processingJobs := 5 }
    activeJobs := 5
    lastHeartbeat := 0 }

/-! ## Backlog drainer model (src/services/virusProtocol.ts) -/

/-- Batch size of processEvolutionQueue (virusProtocol.ts line 545). -/
def batchSize : ℕ := 10

/-- Maximum wall-clock budget of one drain run, 5 minutes in milliseconds
(virusProtocol.ts line 42). -/
def maxProcessingTime : ℕ := 300000

/-- Loop of processEvolutionQueue (virusProtocol.ts lines 549-581) over the
evolution_queue list, parameterised by a failure oracle for
processEvolutionBatch and a budget oracle for the elapsed-time check, both
indexed by the iteration number k.  Each iteration mirrors the redis calls:
lrange 0 (batchSize - 1) is List.take batchSize, ltrim batchSize -1 is
List.drop batchSize, and the catch-handler rpush re-appends the read batch
at the tail and breaks.  Returns the final queue and the successfully
processed batches in order. -/
def drainLoop {α : Type} (fails overBudget : ℕ → Bool) (k : ℕ)
    (q : List α) : List α × List (List α) :=
  if overBudget k then (q, [])
  else if hq : (q.take batchSize).isEmpty then (q, [])
  else if fails k then (q.drop batchSize ++ q.take batchSize, [])
  else
    let res := drainLoop fails overBudget (k + 1) (q.drop batchSize)
    (res.1, q.take batchSize :: res.2)
termination_by q.length
decreasing_by
  have hq0 : q ≠ [] := by
    intro h0
    rw [h0] at hq
    simp at hq
  have hpos : 0 < q.length := List.length_pos.mpr hq0
  simp only [List.length_drop, batchSize]
  omega

/-- The successive batchSize-chunks of a list, i.e. the batches a fully
successful drain run reads. -/
def drainChunks {α : Type} (q : List α) : List (List α) :=
  if hq : (q.take batchSize).isEmpty then []
  else q.take batchSize :: drainChunks (q.drop batchSize)
termination_by q.length
decreasing_by
  have hq0 : q ≠ [] := by
    intro h0
    rw [h0] at hq
    simp at hq
  have hpos : 0 < q.length := List.length_pos.mpr hq0
  simp only [List.length_drop, batchSize]
  omega

/-- Shared evolution_queue as seen by two concurrently draining instances A
and B, together with the batch each instance last read. -/
structure SharedQueueState where
  queue : List ℕ
  batchA : Option (List ℕ)
  batchB : Option (List ℕ)
  deriving DecidableEq, Repr

/-- The individual redis commands issued by the dequeue step of
processEvolutionQueue (virusProtocol.ts lines 558-566), per instance:
lrange 0 (batchSize - 1) reads the head batch without removing it, and a
separate ltrim batchSize -1 removes it. -/
inductive DequeueOp where
  | rangeA
  | trimA
  | rangeB
  | trimB
  deriving DecidableEq, Repr

/-- Effect of one redis command on the shared state; each constructor is a
single atomic store operation. -/
def stepOp (s : SharedQueueState) : DequeueOp → SharedQueueState
  | .rangeA => { s with batchA := some (s.queue.take batchSize) }
  | .trimA => { s with queue := s.queue.drop batchSize }
  | .rangeB => { s with batchB := some (s.queue.take batchSize) }
  | .trimB => { s with queue := s.queue.drop batchSize }

/-- Interleaved execution of the two instances' dequeue commands. -/
def runOps (s : SharedQueueState) (ops : List DequeueOp) : SharedQueueState :=
  ops.foldl stepOp s

/-- In-memory drain state of one VirusProtocolCore instance: the shared
queue, the isProcessing single-flight flag, and the batches processed so
far in the current run. -/
structure CoreState where
  queue : List ℕ
  isProcessing : Bool
  processedBatches : List (List ℕ)
  deriving DecidableEq, Repr

/-- Entry guard of processEvolutionQueue (virusProtocol.ts lines 538-541):
a new run is admitted exactly when the isProcessing flag is clear. -/
def drainStartAdmitted (s : CoreState) : Bool := !s.isProcessing

/-- One successful iteration of the processing loop (virusProtocol.ts
lines 549-581): pop the head batch if the queue is nonempty.  The loop
condition and body read only the queue and the clock, never the
isProcessing flag. -/
def drainIteration (s : CoreState) : Option CoreState :=
  if (s.queue.take batchSize).isEmpty then none
  else some { s with
    queue := s.queue.drop batchSize,
    processedBatches := s.processedBatches ++ [s.queue.take batchSize] }

/-- toggleProcessing, mirrored from virusProtocol.ts lines 609-615: true
starts a run when none is active (the started run immediately sets the
flag, line 543); false clears the in-memory flag. -/
def toggleProcessing (shouldProcess : Bool) (s : CoreState) : CoreState :=
  if shouldProcess && !s.isProcessing then { s with isProcessing := true }
  else if !shouldProcess then { s with isProcessing := false }
  else s

/-- State after the first batch of a run over the backlog 0..24. -/
def afterFirstBatch : Option CoreState :=
  drainIteration
    { queue := List.range 25, isProcessing := true, processedBatches := [] }

/-- State after toggleProcessing false arrives mid-run. -/
def afterToggleOff : Option CoreState :=
  afterFirstBatch.map (toggleProcessing false)

/-- The next loop iteration executed after the toggle. -/
def afterSecondBatch : Option CoreState :=
  afterToggleOff.bind drainIteration

/-- The loop iteration after that. -/
def afterThirdBatch : Option CoreState :=
  afterSecondBatch.bind drainIteration

/-- Registry TTL in seconds set by updateWorkerHealth
(loadBalancer.ts line 104: pipeline.expire with 120). -/
def REGISTRY_TTL_SECONDS : ℕ := 120

/-- updateWorkerHealth publish step (loadBalancer.ts lines 102-106): hset
upserts this worker's status in the workers hash and expire refreshes the
registry-wide TTL to REGISTRY_TTL_SECONDS.  Returns the updated hash and
the TTL applied. -/
def updateWorkerHealth (registry : List (String × WorkerStatus))
    (self : WorkerStatus) : List (String × WorkerStatus) × ℕ :=
  (registry.filter (fun w => w.1 ≠ self.workerId) ++ [(self.workerId, self)],
    REGISTRY_TTL_SECONDS)

/-! ## Admission controller model (src/middleware/rateLimiter.ts) -/

/-- RateLimitConfig record of rateLimiter.ts lines 7-11. -/
structure RateLimitConfig where
  windowMs : ℕ
  max : ℕ
  keyPrefix : String
  deriving DecidableEq, Repr

/-- The global limiter configuration (rateLimiter.ts lines 26-30). -/
def globalLimit : RateLimitConfig :=
  { windowMs := 15 * 60 * 1000, max := 100, keyPrefix := "rl:global:" }

/-- The interaction limiter configuration (rateLimiter.ts lines 31-35). -/
def interactionLimit : RateLimitConfig :=
  { windowMs := 60 * 1000, max := 30, keyPrefix := "rl:interaction:" }

/-- The evolution limiter configuration (rateLimiter.ts lines 36-40). -/
def evolutionLimit : RateLimitConfig :=
  { windowMs := 5 * 60 * 1000, max := 50, keyPrefix := "rl:evolution:" }

/-- The memory limiter configuration (rateLimiter.ts lines 41-45). -/
def memoryLimit : RateLimitConfig :=
  { windowMs := 5 * 60 * 1000, max := 100, keyPrefix := "rl:memory:" }

/-- Live fixed window for one (category, subject) pair. -/
structure RateLimitWindow where
  count : ℕ
  expiresAt : ℕ
  deriving DecidableEq, Repr

/-- Outcome of a single admission check: admitted, or the structured 429
payload of the handler in createLimiter (rateLimiter.ts lines 62-70). -/
inductive AdmissionResult where
  | admitted
  | rateLimited (retryAfter limit : ℕ)
  deriving DecidableEq, Repr

/-- Modelled from the spec: the fixed-window accounting that createLimiter
(rateLimiter.ts lines 52-77) delegates to the express-rate-limit library
over a redis store, code not present in this repository — each check
increments the window keyed category:subjectKey, creating it with
TTL = windowMs when absent or expired, and rejects when the post-increment
count exceeds max.  The rejection payload comes from the in-repo handler:
retryAfter = ceil(windowMs / 1000) seconds and the configured limit. -/
def rateLimitCheck (cfg : RateLimitConfig) (t : ℕ)
    (window : Option RateLimitWindow) : RateLimitWindow × AdmissionResult :=
  let w :=
    match window with
    | none => { count := 1, expiresAt := t + cfg.windowMs }
    | some w0 =>
      if t < w0.expiresAt then { w0 with count := w0.count + 1 }
      else { count := 1, expiresAt := t + cfg.windowMs }
  if w.count > cfg.max then
    (w, .rateLimited ((cfg.windowMs + 999) / 1000) cfg.max)
  else (w, .admitted)

/-- A sequence of admission checks at the given timestamps against one
(category, subject) window, threading the window state. -/
def runChecks (cfg : RateLimitConfig) (window : Option RateLimitWindow) :
    List ℕ → Option RateLimitWindow × List AdmissionResult
  | [] => (window, [])
  | t :: ts =>
    let step := rateLimitCheck cfg t window
    let rest := runChecks cfg (some step.1) ts
    (rest.1, step.2 :: rest.2)

/-- C1: the health classification is a deterministic pure function;
it is unhealthy exactly when cpu > 0.9 or memory > 0.9 or
openConnections > MAX_CONN or inFlightJobs > MAX_JOBS, otherwise degraded
exactly when cpu > 0.7 or memory > 0.7 or openConnections > 0.8 * MAX_CONN or
inFlightJobs > 0.8 * MAX_JOBS, otherwise healthy; the thresholds are strict,
so cpu = 0.9 is not unhealthy and cpu = 0.7 is not degraded. -/
theorem determineHealthStatus_spec :
    (∀ cpu memory : ℚ, ∀ ws jobs : ℕ,
      (determineHealthStatus cpu memory ws jobs = .unhealthy ↔
        (cpu > 9/10 ∨ memory > 9/10 ∨ ws > MAX_WS_CONNECTIONS ∨
          jobs > MAX_JOBS_PER_WORKER)) ∧
      (determineHealthStatus cpu memory ws jobs = .degraded ↔
        (¬(cpu > 9/10 ∨ memory > 9/10 ∨ ws > MAX_WS_CONNECTIONS ∨
            jobs > MAX_JOBS_PER_WORKER) ∧
          (cpu > 7/10 ∨ memory > 7/10 ∨
            (ws : ℚ) > (MAX_WS_CONNECTIONS : ℚ) * (8/10) ∨
            (jobs : ℚ) > (MAX_JOBS_PER_WORKER : ℚ) * (8/10)))) ∧
      (determineHealthStatus cpu memory ws jobs = .healthy ↔
        (¬(cpu > 9/10 ∨ memory > 9/10 ∨ ws > MAX_WS_CONNECTIONS ∨
            jobs > MAX_JOBS_PER_WORKER) ∧
          ¬(cpu > 7/10 ∨ memory > 7/10 ∨
            (ws : ℚ) > (MAX_WS_CONNECTIONS : ℚ) * (8/10) ∨
            (jobs : ℚ) > (MAX_JOBS_PER_WORKER : ℚ) * (8/10))))) ∧
    determineHealthStatus (9/10) 0 0 0 ≠ .unhealthy ∧
    determineHealthStatus (7/10) 0 0 0 = .healthy := by
  refine ⟨fun cpu memory ws jobs => ?_,
    by norm_num [determineHealthStatus, MAX_WS_CONNECTIONS, MAX_JOBS_PER_WORKER]; decide,
    by norm_num [determineHealthStatus, MAX_WS_CONNECTIONS, MAX_JOBS_PER_WORKER]⟩
  unfold determineHealthStatus
  by_cases hU : cpu > 9/10 ∨ memory > 9/10 ∨ ws > MAX_WS_CONNECTIONS ∨
      jobs > MAX_JOBS_PER_WORKER
  · simp [hU]
  · by_cases hD : cpu > 7/10 ∨ memory > 7/10 ∨
        (ws : ℚ) > (MAX_WS_CONNECTIONS : ℚ) * (8/10) ∨
        (jobs : ℚ) > (MAX_JOBS_PER_WORKER : ℚ) * (8/10)
    · simp [hU, hD]
    · simp [hU, hD]

/-- C10: canAcceptConnection is true exactly when the current classification
is not unhealthy and openConnections is strictly below MAX_CONN; at exactly
MAX_CONN it refuses even though the classification (which needs
openConnections strictly above MAX_CONN to turn unhealthy) is still only
degraded there. -/
theorem canAcceptConnection_spec :
    (∀ cpu memory : ℚ, ∀ ws jobs : ℕ,
      canAcceptConnection cpu memory ws jobs = true ↔
        (determineHealthStatus cpu memory ws jobs ≠ .unhealthy ∧
          ws < MAX_WS_CONNECTIONS)) ∧
    canAcceptConnection 0 0 MAX_WS_CONNECTIONS 0 = false ∧
    determineHealthStatus 0 0 MAX_WS_CONNECTIONS 0 = .degraded := by
  refine ⟨fun cpu memory ws jobs => ?_, ?_, ?_⟩
  · simp [canAcceptConnection]
  · norm_num [canAcceptConnection, determineHealthStatus,
      MAX_WS_CONNECTIONS, MAX_JOBS_PER_WORKER]
  · norm_num [determineHealthStatus, MAX_WS_CONNECTIONS, MAX_JOBS_PER_WORKER]

theorem foldl_pickBetter_spec (t : List (String × ℚ)) (h : String × ℚ) :
    ∃ pre post, h :: t = pre ++ (t.foldl pickBetter h) :: post ∧
      (∀ y ∈ pre, y.2 < (t.foldl pickBetter h).2) ∧
      (∀ y ∈ h :: t, y.2 ≤ (t.foldl pickBetter h).2) := by
  induction t generalizing h with
  | nil => exact ⟨[], [], rfl, by simp, by simp⟩
  | cons c t2 ih =>
    rw [List.foldl_cons]
    obtain ⟨pre, post, hdec, hpre, hle⟩ := ih (pickBetter h c)
    set r := t2.foldl pickBetter (pickBetter h c) with hr
    by_cases hc : c.2 > h.2
    · have hpc : pickBetter h c = c := by simp [pickBetter, hc]
      rw [hpc] at hdec hle
      have hcr : c.2 ≤ r.2 := hle c (by simp)
      refine ⟨h :: pre, post, by rw [List.cons_append, hdec], ?_, ?_⟩
      · intro y hy
        rcases List.mem_cons.mp hy with hy | hy
        · exact hy ▸ lt_of_lt_of_le hc hcr
        · exact hpre y hy
      · intro y hy
        rcases List.mem_cons.mp hy with hy | hy
        · exact hy ▸ le_of_lt (lt_of_lt_of_le hc hcr)
        · exact hle y hy
    · have hpc : pickBetter h c = h := by simp [pickBetter, hc]
      rw [hpc] at hdec hle
      have hch : c.2 ≤ h.2 := le_of_not_lt hc
      cases pre with
      | nil =>
        simp only [List.nil_append] at hdec
        obtain ⟨hrh, hpost⟩ := List.cons.inj hdec
        refine ⟨[], c :: t2, by rw [List.nil_append, ← hrh], by simp, ?_⟩
        intro y hy
        rcases List.mem_cons.mp hy with hy | hy
        · exact hy ▸ hle h (by simp)
        · rcases List.mem_cons.mp hy with hy2 | hy2
          · exact hy2 ▸ (hrh ▸ hch)
          · exact hle y (List.mem_cons.mpr (Or.inr hy2))
      | cons p pre2 =>
        rw [List.cons_append] at hdec
        obtain ⟨hph, ht2⟩ := List.cons.inj hdec
        have hhr : h.2 < r.2 := hph ▸ hpre p (by simp)
        refine ⟨h :: c :: pre2, post, ?_, ?_, ?_⟩
        · simp [ht2]
        · intro y hy
          rcases List.mem_cons.mp hy with hy | hy
          · exact hy ▸ hhr
          · rcases List.mem_cons.mp hy with hy2 | hy2
            · exact hy2 ▸ lt_of_le_of_lt hch hhr
            · exact hpre y (List.mem_cons.mpr (Or.inr hy2))
        · intro y hy
          rcases List.mem_cons.mp hy with hy | hy
          · exact hy ▸ le_of_lt hhr
          · rcases List.mem_cons.mp hy with hy2 | hy2
            · exact hy2 ▸ le_of_lt (lt_of_le_of_lt hch hhr)
            · exact hle y (List.mem_cons.mpr (Or.inr hy2))

/-- C2: the worker selector never returns an unhealthy or timed-out
instance; it returns the first-encountered candidate of strictly highest
score among the filtered candidates, and none exactly when the registry is
empty or fully filtered. -/
theorem getOptimalWorker_spec :
    (∀ (now : ℤ) (workers : List (String × WorkerStatus)),
      getOptimalWorker now workers = none ↔
        workers.filter (fun w => workerIsActive now w.2) = []) ∧
    (∀ (now : ℤ) (workers : List (String × WorkerStatus)) (winner : String),
      getOptimalWorker now workers = some winner →
      ∃ pre x post,
        (workers.filter (fun w => workerIsActive now w.2)).map
            (fun w => (w.1, calculateWorkerScore w.2)) = pre ++ x :: post ∧
        x.1 = winner ∧
        (∃ st, (winner, st) ∈ workers ∧ st.health.status ≠ .unhealthy ∧
          now - st.lastHeartbeat < WORKER_TIMEOUT ∧
          x.2 = calculateWorkerScore st) ∧
        (∀ y ∈ pre, y.2 < x.2) ∧
        (∀ y ∈ pre ++ x :: post, y.2 ≤ x.2)) := by
  constructor
  · intro now workers
    cases workers with
    | nil => simp [getOptimalWorker]
    | cons a as =>
      simp only [getOptimalWorker, List.isEmpty_cons, Bool.false_eq_true,
        if_false]
      cases hm : ((a :: as).filter (fun w => workerIsActive now w.2)).map
          (fun w => (w.1, calculateWorkerScore w.2)) with
      | nil =>
        simp only [List.map_eq_nil_iff] at hm
        simp [hm]
      | cons h t =>
        have hne : (a :: as).filter (fun w => workerIsActive now w.2) ≠ [] := by
          intro hcon
          rw [hcon] at hm
          cases hm
        simp [hne]
  · intro now workers winner hw
    simp only [getOptimalWorker] at hw
    by_cases hemp : workers.isEmpty
    · rw [if_pos hemp] at hw
      cases hw
    · rw [if_neg hemp] at hw
      cases hm : (workers.filter (fun w => workerIsActive now w.2)).map
          (fun w => (w.1, calculateWorkerScore w.2)) with
      | nil => rw [hm] at hw; cases hw
      | cons h t =>
        rw [hm] at hw
        obtain ⟨pre, post, hdec, hpre, hle⟩ := foldl_pickBetter_spec t h
        set r := t.foldl pickBetter h with hrdef
        have hwin : r.1 = winner := by
          injection hw
        have hmem : r ∈ h :: t := by
          rw [hdec]
          exact List.mem_append_right _ (List.mem_cons_self _ _)
        rw [← hm] at hmem
        obtain ⟨w, hwf, hweq⟩ := List.mem_map.mp hmem
        have hwmem : w ∈ workers := (List.mem_filter.mp hwf).1
        have hact : workerIsActive now w.2 = true := (List.mem_filter.mp hwf).2
        rw [workerIsActive, Bool.and_eq_true, decide_eq_true_eq,
          decide_eq_true_eq] at hact
        have hw1 : r.1 = w.1 := by rw [← hweq]
        refine ⟨pre, r, post, ?_, hwin, ⟨w.2, ?_, hact.1, hact.2, ?_⟩,
          hpre, ?_⟩
        · exact hdec
        · show (winner, w.2) ∈ workers
          rw [← hwin, hw1]
          exact hwmem
        · rw [← hweq]
        · intro y hy
          exact hle y (hdec ▸ hy)

/-- Witness for C2: on a concrete two-entry registry the selector picks the
healthy idle instance, and the selection property holds there. -/
theorem getOptimalWorker_spec_witness :
    getOptimalWorker 0 [("A", workerA), ("B", workerB)] = some "A" ∧
    (∃ pre x post,
      ([("A", workerA), ("B", workerB)].filter
          (fun w => workerIsActive 0 w.2)).map
          (fun w => (w.1, calculateWorkerScore w.2)) = pre ++ x :: post ∧
      x.1 = "A" ∧
      (∃ st, ("A", st) ∈ [("A", workerA), ("B", workerB)] ∧
        st.health.status ≠ .unhealthy ∧
        (0 : ℤ) - st.lastHeartbeat < WORKER_TIMEOUT ∧
        x.2 = calculateWorkerScore st) ∧
      (∀ y ∈ pre, y.2 < x.2) ∧
      (∀ y ∈ pre ++ x :: post, y.2 ≤ x.2)) := by
  have hres : getOptimalWorker 0 [("A", workerA), ("B", workerB)] =
      some "A" := by
    have h1 : ¬((HealthStatus.healthy) = HealthStatus.unhealthy) := by decide
    have h2 : ¬((HealthStatus.degraded) = HealthStatus.unhealthy) := by decide
    have h3 : ¬((HealthStatus.degraded) = HealthStatus.healthy) := by decide
    have h4 : ((HealthStatus.healthy) = HealthStatus.healthy) := rfl
    norm_num [getOptimalWorker, workerIsActive, workerA, workerB,
      calculateWorkerScore, pickBetter, WORKER_TIMEOUT,
      MAX_JOBS_PER_WORKER, MAX_WS_CONNECTIONS, List.filter_cons,
      List.filter_nil, if_neg h1, if_neg h2, if_neg h3, if_pos h4]
  exact ⟨hres, getOptimalWorker_spec.2 0 _ "A" hres⟩

/-- C6: the worker score is non-increasing in cpu, memory, openConnections
and in-flight jobs separately, non-decreasing in health tier (healthy scores
at least an otherwise-identical degraded), and is computed as
0.3 health + 0.2 load + 0.2 cpu + 0.2 mem + 0.1 conn with the per-term
definitions of calculateWorkerScore. -/
theorem calculateWorkerScore_monotone :
    (∀ (s : WorkerStatus) (c1 c2 : ℚ), c1 ≤ c2 →
      calculateWorkerScore { s with health := { s.health with cpu := c2 } } ≤
        calculateWorkerScore { s with health := { s.health with cpu := c1 } }) ∧
    (∀ (s : WorkerStatus) (m1 m2 : ℚ), m1 ≤ m2 →
      calculateWorkerScore { s with health := { s.health with memory := m2 } } ≤
        calculateWorkerScore
          { s with health := { s.health with memory := m1 } }) ∧
    (∀ (s : WorkerStatus) (w1 w2 : ℕ), w1 ≤ w2 →
      calculateWorkerScore
          { s with health := { s.health with wsConnections := w2 } } ≤
        calculateWorkerScore
          { s with health := { s.health with wsConnections := w1 } }) ∧
    (∀ (s : WorkerStatus) (j1 j2 : ℕ), j1 ≤ j2 →
      calculateWorkerScore { s with activeJobs := j2 } ≤
        calculateWorkerScore { s with activeJobs := j1 }) ∧
    (∀ s : WorkerStatus,
      calculateWorkerScore
          { s with health := { s.health with status := .degraded } } ≤
        calculateWorkerScore
          { s with health := { s.health with status := .healthy } }) ∧
    (∀ s : WorkerStatus, calculateWorkerScore s =
      (if s.health.status = .healthy then (1 : ℚ) else 1/2) * (3/10) +
        (1 - (s.activeJobs : ℚ) / (MAX_JOBS_PER_WORKER : ℚ)) * (2/10) +
        (1 - s.health.cpu) * (2/10) + (1 - s.health.memory) * (2/10) +
        (1 - (s.health.wsConnections : ℚ) / (MAX_WS_CONNECTIONS : ℚ)) *
          (1/10)) := by
  refine ⟨?_, ?_, ?_, ?_, ?_, fun s => rfl⟩
  · intro s c1 c2 hc
    simp only [calculateWorkerScore]
    linarith
  · intro s m1 m2 hm
    simp only [calculateWorkerScore]
    linarith
  · intro s w1 w2 hw
    have hcast : (w1 : ℚ) ≤ (w2 : ℚ) := Nat.cast_le.mpr hw
    simp only [calculateWorkerScore, MAX_WS_CONNECTIONS, MAX_JOBS_PER_WORKER]
    push_cast
    linarith
  · intro s j1 j2 hj
    have hcast : (j1 : ℚ) ≤ (j2 : ℚ) := Nat.cast_le.mpr hj
    simp only [calculateWorkerScore, MAX_WS_CONNECTIONS, MAX_JOBS_PER_WORKER]
    push_cast
    linarith
  · intro s
    simp only [calculateWorkerScore]
    have hd : ¬((HealthStatus.degraded) = HealthStatus.healthy) := by decide
    rw [if_neg hd]
    norm_num

/-- Witness for C6: the cpu-monotonicity conjunct applied to the healthy
sample instance at cpu 0 versus cpu 1. -/
theorem calculateWorkerScore_monotone_witness :
    (0 : ℚ) ≤ 1 ∧
    calculateWorkerScore { workerA with health :=
        { workerA.health with cpu := 1 } } ≤
      calculateWorkerScore { workerA with health :=
        { workerA.health with cpu := 0 } } :=
  ⟨by norm_num, calculateWorkerScore_monotone.1 workerA 0 1 (by norm_num)⟩

theorem drainLoop_success {α : Type} :
    ∀ (n : ℕ) (q : List α), q.length ≤ n → ∀ k,
      drainLoop (fun _ => false) (fun _ => false) k q = ([], drainChunks q) := by
  intro n
  induction n with
  | zero =>
    intro q hq k
    have hqnil : q = [] := List.length_eq_zero.mp (Nat.le_zero.mp hq)
    subst hqnil
    rw [drainLoop, drainChunks]
    simp
  | succ n ih =>
    intro q hq k
    rw [drainLoop, drainChunks]
    by_cases hqe : (q.take batchSize).isEmpty
    · have h1 : q.take batchSize = [] := by simpa using hqe
      have hqnil : q = [] := by
        rcases List.take_eq_nil_iff.mp h1 with h | h
        all_goals first
          | exact h
          | exact absurd h (by decide)
      simp [hqe, hqnil]
    · have hq0 : q ≠ [] := by
        intro h0
        rw [h0] at hqe
        simp at hqe
      have hpos : 0 < q.length := List.length_pos.mpr hq0
      have hlen : (q.drop batchSize).length ≤ n := by
        simp only [List.length_drop, batchSize]
        omega
      simp [hqe, ih (q.drop batchSize) hlen (k + 1)]

/-- The batches read by any drain run concatenate to a prefix of the
starting queue. -/
theorem drainLoop_batches_take {α : Type} :
    ∀ (n : ℕ) (q : List α), q.length ≤ n →
    ∀ (fails overBudget : ℕ → Bool) (k : ℕ),
      ∃ m, ((drainLoop fails overBudget k q).2).flatten = q.take m := by
  intro n
  induction n with
  | zero =>
    intro q hq fails overBudget k
    have hqnil : q = [] := List.length_eq_zero.mp (Nat.le_zero.mp hq)
    subst hqnil
    rw [drainLoop]
    exact ⟨0, by simp⟩
  | succ n ih =>
    intro q hq fails overBudget k
    by_cases hob : overBudget k
    · refine ⟨0, ?_⟩
      rw [drainLoop]
      simp [hob]
    · by_cases hqe : (q.take batchSize).isEmpty
      · refine ⟨0, ?_⟩
        rw [drainLoop]
        simp [hob, hqe]
      · by_cases hf : fails k
        · refine ⟨0, ?_⟩
          rw [drainLoop]
          simp [hob, hqe, hf]
        · have hq0 : q ≠ [] := by
            intro h0
            rw [h0] at hqe
            simp at hqe
          have hpos : 0 < q.length := List.length_pos.mpr hq0
          have hlen : (q.drop batchSize).length ≤ n := by
            simp only [List.length_drop, batchSize]
            omega
          obtain ⟨m, hm⟩ := ih (q.drop batchSize) hlen fails overBudget (k + 1)
          refine ⟨batchSize + m, ?_⟩
          rw [drainLoop]
          simp [hob, hqe, hf, hm, List.take_add]

theorem drainChunks_nil {α : Type} : drainChunks ([] : List α) = [] := by
  rw [drainChunks]
  simp

theorem drainChunks_cons {α : Type} (q : List α) (hne : q ≠ []) :
    drainChunks q = q.take batchSize :: drainChunks (q.drop batchSize) := by
  rw [drainChunks]
  rw [dif_neg (by simp [List.take_eq_nil_iff, hne, batchSize])]

theorem drainChunks_flatten {α : Type} :
    ∀ (n : ℕ) (q : List α), q.length ≤ n → (drainChunks q).flatten = q := by
  intro n
  induction n with
  | zero =>
    intro q hq
    have hqnil : q = [] := List.length_eq_zero.mp (Nat.le_zero.mp hq)
    subst hqnil
    rw [drainChunks_nil]
    rfl
  | succ n ih =>
    intro q hq
    by_cases hq0 : q = []
    · subst hq0
      rw [drainChunks_nil]
      rfl
    · have hpos : 0 < q.length := List.length_pos.mpr hq0
      have hlen : (q.drop batchSize).length ≤ n := by
        simp only [List.length_drop, batchSize]
        omega
      rw [drainChunks_cons q hq0]
      simp only [List.flatten_cons, ih (q.drop batchSize) hlen]
      exact List.take_append_drop batchSize q

/-- C7: a fully successful drain run over 25 backlog items pops exactly the
three batches of sizes 10, 10 and 5 in order, leaves the backlog empty, and
the batches concatenate back to the original backlog (order preserved within
and across batches). -/
theorem drainLoop_25_spec {α : Type} (q : List α) (h25 : q.length = 25) :
    drainLoop (fun _ => false) (fun _ => false) 0 q =
      ([], [q.take 10, (q.drop 10).take 10, q.drop 20]) ∧
    ((drainLoop (fun _ => false) (fun _ => false) 0 q).2).map List.length =
      [10, 10, 5] ∧
    ((drainLoop (fun _ => false) (fun _ => false) 0 q).2).flatten = q := by
  have hq0 : q ≠ [] := by
    intro h0
    rw [h0] at h25
    simp at h25
  have hd10 : (q.drop batchSize).length = 15 := by
    simp [h25, batchSize]
  have hd20 : ((q.drop batchSize).drop batchSize).length = 5 := by
    simp [h25, batchSize]
  have hd10ne : q.drop batchSize ≠ [] := by
    intro h0
    rw [h0] at hd10
    simp at hd10
  have hd20ne : (q.drop batchSize).drop batchSize ≠ [] := by
    intro h0
    rw [h0] at hd20
    simp at hd20
  have hch : drainChunks q = [q.take 10, (q.drop 10).take 10, q.drop 20] := by
    rw [drainChunks_cons q hq0, drainChunks_cons _ hd10ne,
      drainChunks_cons _ hd20ne]
    have htail : ((q.drop batchSize).drop batchSize).drop batchSize = [] := by
      apply List.drop_eq_nil_of_le
      rw [hd20]
      decide
    rw [htail, drainChunks_nil]
    have htake3 : ((q.drop batchSize).drop batchSize).take batchSize =
        (q.drop batchSize).drop batchSize :=
      List.take_of_length_le (by rw [hd20]; decide)
    rw [htake3]
    simp [batchSize, List.drop_drop]
  have hrun := drainLoop_success q.length q le_rfl 0
  refine ⟨by rw [hrun, hch], ?_, ?_⟩
  · rw [hrun, hch]
    simp [List.length_take, List.length_drop, h25]
  · rw [hrun]
    exact drainChunks_flatten q.length q le_rfl

/-- Witness for C7: the run over the concrete backlog 0..24. -/
theorem drainLoop_25_spec_witness :
    (List.range 25).length = 25 ∧
    drainLoop (fun _ => false) (fun _ => false) 0 (List.range 25) =
      ([], [(List.range 25).take 10, ((List.range 25).drop 10).take 10,
        (List.range 25).drop 20]) :=
  ⟨by simp, (drainLoop_25_spec (List.range 25) (by simp)).1⟩

/-- Shape of a drain run whose first processEvolutionBatch failure happens
at batch index kf (iterations j..j+kf-1 succeed, j+kf fails): the run stops
with the failed batch re-appended behind the remaining items, having
processed exactly the first kf chunks. -/
theorem drainLoop_first_fail {α : Type} :
    ∀ (kf : ℕ) (q : List α) (fails overBudget : ℕ → Bool) (j : ℕ),
      (∀ i, i < kf → fails (j + i) = false) →
      fails (j + kf) = true →
      (∀ i, overBudget i = false) →
      q.drop (batchSize * kf) ≠ [] →
      drainLoop fails overBudget j q =
        ((q.drop (batchSize * kf)).drop batchSize ++
            (q.drop (batchSize * kf)).take batchSize,
          drainChunks (q.take (batchSize * kf))) := by
  intro kf
  induction kf with
  | zero =>
    intro q fails overBudget j hsucc hfail hb hne
    rw [Nat.mul_zero, List.drop_zero] at hne ⊢
    rw [drainLoop]
    rw [hb j, Nat.add_zero] at *
    rw [hfail]
    rw [dif_neg (by simp [List.take_eq_nil_iff, hne, batchSize])]
    simp [List.take_zero, drainChunks_nil]
  | succ kf ih =>
    intro q fails overBudget j hsucc hfail hb hne
    have hq0 : q ≠ [] := by
      intro h0
      rw [h0] at hne
      simp at hne
    have hf0 : fails j = false := by
      have := hsucc 0 (Nat.succ_pos kf)
      rwa [Nat.add_zero] at this
    rw [drainLoop, hb j, hf0]
    rw [dif_neg (by simp [List.take_eq_nil_iff, hq0, batchSize])]
    have hne2 : (q.drop batchSize).drop (batchSize * kf) ≠ [] := by
      rw [List.drop_drop]
      have harith : batchSize + batchSize * kf = batchSize * (kf + 1) := by
        ring
      rw [harith]
      exact hne
    have hsucc2 : ∀ i, i < kf → fails (j + 1 + i) = false := by
      intro i hi
      have harith : j + 1 + i = j + (i + 1) := by omega
      rw [harith]
      exact hsucc (i + 1) (Nat.succ_lt_succ hi)
    have hfail2 : fails (j + 1 + kf) = true := by
      have harith : j + 1 + kf = j + (kf + 1) := by omega
      rw [harith]
      exact hfail
    rw [ih (q.drop batchSize) fails overBudget (j + 1) hsucc2 hfail2 hb hne2]
    have hdd : (q.drop batchSize).drop (batchSize * kf) =
        q.drop (batchSize * (kf + 1)) := by
      rw [List.drop_drop]
      congr 1
      ring
    rw [hdd]
    have htk : drainChunks (q.take (batchSize * (kf + 1))) =
        q.take batchSize :: drainChunks ((q.drop batchSize).take
          (batchSize * kf)) := by
      have htne : q.take (batchSize * (kf + 1)) ≠ [] := by
        simp [List.take_eq_nil_iff, hq0, batchSize]
      rw [drainChunks_cons _ htne]
      have h1 : (q.take (batchSize * (kf + 1))).take batchSize =
          q.take batchSize := by
        rw [List.take_take]
        have hle : batchSize ≤ batchSize * (kf + 1) :=
          Nat.le_mul_of_pos_right batchSize (Nat.succ_pos kf)
        rw [Nat.min_eq_left hle]
      have h2 : (q.take (batchSize * (kf + 1))).drop batchSize =
          (q.drop batchSize).take (batchSize * kf) := by
        rw [List.drop_take]
        have harith : batchSize * (kf + 1) - batchSize = batchSize * kf := by
          simp only [batchSize]
          omega
        rw [harith]
      rw [h1, h2]
    rw [htk]
    simp

/-- C4 (amended): when the first batch failure of a drain run happens at
batch index kf within budget, the run stops at once with no per-item retry;
the backlog then holds exactly the unread later items followed by the failed
batch re-appended verbatim at the tail (rpush), each part in original order,
and exactly the first kf batches were processed. -/
theorem drainLoop_failure_requeue_spec {α : Type} (kf : ℕ) (q : List α)
    (fails overBudget : ℕ → Bool) (hsucc : ∀ i, i < kf → fails (0 + i) = false)
    (hfail : fails (0 + kf) = true) (hb : ∀ i, overBudget i = false)
    (hne : q.drop (batchSize * kf) ≠ []) :
    drainLoop fails overBudget 0 q =
      ((q.drop (batchSize * kf)).drop batchSize ++
          (q.drop (batchSize * kf)).take batchSize,
        drainChunks (q.take (batchSize * kf))) :=
  drainLoop_first_fail kf q fails overBudget 0 hsucc hfail hb hne

/-- Witness for C4 (amended): failure at the second batch of the backlog
0..24 leaves drop 20 ++ items 10..19 and one processed batch. -/
theorem drainLoop_failure_requeue_spec_witness :
    (∀ i, i < 1 → (fun k => decide (k = 1)) (0 + i) = false) ∧
    (fun k => decide (k = 1)) (0 + 1) = true ∧
    (List.range 25).drop (batchSize * 1) ≠ [] ∧
    drainLoop (fun k => decide (k = 1)) (fun _ => false) 0 (List.range 25) =
      (((List.range 25).drop (batchSize * 1)).drop batchSize ++
          ((List.range 25).drop (batchSize * 1)).take batchSize,
        drainChunks ((List.range 25).take (batchSize * 1))) := by
  refine ⟨?_, by decide, by decide, ?_⟩
  · intro i hi
    have h0 : i = 0 := by omega
    subst h0
    decide
  · exact drainLoop_failure_requeue_spec 1 (List.range 25) _ _
      (by intro i hi; simp only [decide_eq_false_iff_not]; omega)
      (by decide) (fun _ => rfl) (by decide)

/-- Counterexample for C4 as stated: with backlog 1..11 and the first batch
failing, the code leaves the backlog as the later item 11 followed by the
re-queued batch 1..10 at the tail, not the failed batch followed by the
later items. -/
theorem drainLoop_failure_order_counterexample :
    (drainLoop (fun _ => true) (fun _ => false) 0
        [1, 2, 3, 4, 5, 6, 7, 8, 9, 10, 11]).1 =
      [11, 1, 2, 3, 4, 5, 6, 7, 8, 9, 10] ∧
    ([11, 1, 2, 3, 4, 5, 6, 7, 8, 9, 10] : List ℕ) ≠
      [1, 2, 3, 4, 5, 6, 7, 8, 9, 10] ++ [11] := by
  constructor
  · have h := drainLoop_first_fail 0 [1, 2, 3, 4, 5, 6, 7, 8, 9, 10, 11]
      (fun _ => true) (fun _ => false) 0
      (fun i hi => absurd hi (Nat.not_lt_zero i)) rfl (fun _ => rfl)
      (by decide)
    rw [h]
    decide
  · decide

/-- C8 (amended): the dequeue is not one atomic step but an lrange peek
followed by a separate ltrim; only when the peek-trim pairs of different
instances do not interleave does remove-then-process hold, and then a drain
run's batches are pairwise disjoint, so each backlog entry is checked out by
at most one batch of the run. -/
theorem drainLoop_batches_disjoint {α : Type} (q : List α) (hnd : q.Nodup)
    (fails overBudget : ℕ → Bool) (k : ℕ) :
    ((drainLoop fails overBudget k q).2).Pairwise List.Disjoint := by
  obtain ⟨m, hm⟩ :=
    drainLoop_batches_take q.length q le_rfl fails overBudget k
  have hnd2 : ((drainLoop fails overBudget k q).2).flatten.Nodup := by
    rw [hm]
    exact hnd.sublist (List.take_sublist m q)
  exact ((List.nodup_flatten).mp hnd2).2

/-- Witness for C8 (amended): batch disjointness of a run over the distinct
backlog 0..24 with a failure injected at the second batch. -/
theorem drainLoop_batches_disjoint_witness :
    (List.range 25).Nodup ∧
    ((drainLoop (fun i => decide (i = 1)) (fun _ => false) 0
        (List.range 25)).2).Pairwise List.Disjoint :=
  ⟨List.nodup_range 25,
    drainLoop_batches_disjoint (List.range 25) (List.nodup_range 25)
      (fun i => decide (i = 1)) (fun _ => false) 0⟩

/-- Counterexample for C8 as stated: interleaving the lrange of instance B
between the lrange and ltrim of instance A makes both instances read the
same head batch of the 12-entry backlog — entry 0 is held by both — and the
two trims then discard entries 10 and 11 that neither instance read, so the
dequeue is not an atomic remove-then-process step. -/
theorem atomic_dequeue_counterexample :
    (runOps { queue := List.range 12, batchA := none, batchB := none }
        [.rangeA, .rangeB, .trimA, .trimB]).batchA =
      some ((List.range 12).take 10) ∧
    (runOps { queue := List.range 12, batchA := none, batchB := none }
        [.rangeA, .rangeB, .trimA, .trimB]).batchB =
      some ((List.range 12).take 10) ∧
    0 ∈ (List.range 12).take 10 ∧
    (runOps { queue := List.range 12, batchA := none, batchB := none }
        [.rangeA, .rangeB, .trimA, .trimB]).queue = [] ∧
    10 ∉ (List.range 12).take 10 ∧ 11 ∉ (List.range 12).take 10 := by
  refine ⟨?_, ?_, ?_, ?_, ?_, ?_⟩ <;> decide

/-- C9: after toggleProcessing false arrives mid-run, the loop — whose
condition never reads isProcessing — still pops the second and third
batches and drains the queue, and because the flag is now clear a
concurrent processEvolutionQueue call is admitted rather than refused by
the single-flight guard; the run does not stop after the in-flight batch. -/
theorem toggleProcessing_midrun_divergence :
    afterToggleOff.map CoreState.isProcessing = some false ∧
    afterToggleOff.map drainStartAdmitted = some true ∧
    afterSecondBatch.map (fun s => s.processedBatches.length) = some 2 ∧
    afterThirdBatch.map (fun s => s.processedBatches.length) = some 3 ∧
    afterThirdBatch.map CoreState.queue = some [] := by
  refine ⟨?_, ?_, ?_, ?_, ?_⟩ <;> decide

/-- C5 (amended): every publish refreshes the registry-wide TTL to the
fixed 120 seconds — four times the default 30-second heartbeat period, not
twice. -/
theorem updateWorkerHealth_ttl (registry : List (String × WorkerStatus))
    (self : WorkerStatus) :
    (updateWorkerHealth registry self).2 = REGISTRY_TTL_SECONDS ∧
    REGISTRY_TTL_SECONDS = 4 * (HEALTH_CHECK_INTERVAL / 1000) :=
  ⟨rfl, rfl⟩

/-- Counterexample for C5 as stated: the TTL applied by a publish is 120
seconds, which is not twice the 30-second heartbeat period. -/
theorem updateWorkerHealth_ttl_counterexample :
    (updateWorkerHealth [] workerA).2 ≠ 2 * (HEALTH_CHECK_INTERVAL / 1000) := by
  decide

theorem runChecks_live_window (cfg : RateLimitConfig) (e : ℕ) :
    ∀ (ts : List ℕ) (c : ℕ), (∀ t ∈ ts, t < e) →
      runChecks cfg (some { count := c, expiresAt := e }) ts =
        (some { count := c + ts.length, expiresAt := e },
          (List.range ts.length).map (fun k =>
            if c + k + 1 ≤ cfg.max then AdmissionResult.admitted
            else .rateLimited ((cfg.windowMs + 999) / 1000) cfg.max)) := by
  intro ts
  induction ts with
  | nil =>
    intro c hin
    simp [runChecks]
  | cons t ts ih =>
    intro c hin
    have ht : t < e := hin t (by simp)
    have hts : ∀ u ∈ ts, u < e := fun u hu => hin u (by simp [hu])
    have hshift : (List.range (ts.length + 1)).map (fun k =>
        if c + k + 1 ≤ cfg.max then AdmissionResult.admitted
        else .rateLimited ((cfg.windowMs + 999) / 1000) cfg.max) =
      (if c + 1 ≤ cfg.max then AdmissionResult.admitted
        else .rateLimited ((cfg.windowMs + 999) / 1000) cfg.max) ::
        (List.range ts.length).map (fun k =>
          if c + 1 + k + 1 ≤ cfg.max then AdmissionResult.admitted
          else .rateLimited ((cfg.windowMs + 999) / 1000) cfg.max) := by
      rw [List.range_succ_eq_map]
      simp only [List.map_cons, List.map_map, List.cons.injEq]
      refine ⟨by simp, ?_⟩
      apply List.map_congr_left
      intro k hk
      simp only [Function.comp_apply, Nat.succ_eq_add_one]
      have he : c + (k + 1) + 1 = c + 1 + k + 1 := by omega
      rw [he]
    rw [runChecks]
    simp only [rateLimitCheck, if_pos ht, List.length_cons]
    rw [hshift]
    by_cases hc : c + 1 > cfg.max
    · rw [if_pos hc, if_neg (by omega)]
      simp only [ih (c + 1) hts, Prod.mk.injEq, Option.some.injEq,
        RateLimitWindow.mk.injEq, List.cons.injEq]
      repeat' apply And.intro
      all_goals first
        | trivial
        | omega
    · rw [if_neg hc, if_pos (by omega)]
      simp only [ih (c + 1) hts, Prod.mk.injEq, Option.some.injEq,
        RateLimitWindow.mk.injEq, List.cons.injEq]
      repeat' apply And.intro
      all_goals first
        | trivial
        | omega

/-- C3 (amended): starting from no live window, the first check creates the
window and exactly max checks in the same window are admitted; every later
check in that window is rejected with the structured rate-limited payload
whose retry-after is the constant ceil(windowMs / 1000) seconds — the full
window, not the remaining TTL — which for the repo's whole-second windows
equals windowMs. -/
theorem rateLimiter_window_spec (cfg : RateLimitConfig) (t0 : ℕ)
    (ts : List ℕ) (hin : ∀ t ∈ ts, t < t0 + cfg.windowMs) :
    (runChecks cfg none (t0 :: ts)).2 =
      (List.range (ts.length + 1)).map (fun k =>
        if k + 1 ≤ cfg.max then AdmissionResult.admitted
        else .rateLimited ((cfg.windowMs + 999) / 1000) cfg.max) ∧
    (runChecks cfg none (t0 :: ts)).1 =
      some { count := ts.length + 1, expiresAt := t0 + cfg.windowMs } ∧
    (cfg.windowMs % 1000 = 0 →
      ((cfg.windowMs + 999) / 1000) * 1000 = cfg.windowMs) := by
  have hshift : (List.range (ts.length + 1)).map (fun k =>
      if k + 1 ≤ cfg.max then AdmissionResult.admitted
      else .rateLimited ((cfg.windowMs + 999) / 1000) cfg.max) =
    (if 1 ≤ cfg.max then AdmissionResult.admitted
      else .rateLimited ((cfg.windowMs + 999) / 1000) cfg.max) ::
      (List.range ts.length).map (fun k =>
        if 1 + k + 1 ≤ cfg.max then AdmissionResult.admitted
        else .rateLimited ((cfg.windowMs + 999) / 1000) cfg.max) := by
    rw [List.range_succ_eq_map]
    simp only [List.map_cons, List.map_map, List.cons.injEq]
    refine ⟨by simp, ?_⟩
    apply List.map_congr_left
    intro k hk
    simp only [Function.comp_apply, Nat.succ_eq_add_one]
    have he : k + 1 + 1 = 1 + k + 1 := by omega
    rw [he]
  have h1 : runChecks cfg none (t0 :: ts) =
      ((runChecks cfg
          (some { count := 1, expiresAt := t0 + cfg.windowMs }) ts).1,
        (if 1 ≤ cfg.max then AdmissionResult.admitted
          else .rateLimited ((cfg.windowMs + 999) / 1000) cfg.max) ::
          (runChecks cfg
            (some { count := 1, expiresAt := t0 + cfg.windowMs }) ts).2) := by
    rw [runChecks]
    simp only [rateLimitCheck]
    by_cases hc : 1 > cfg.max
    · rw [if_pos hc, if_neg (by omega)]
    · rw [if_neg hc, if_pos (by omega)]
  refine ⟨?_, ?_, fun hmod => by omega⟩
  · rw [h1, runChecks_live_window cfg (t0 + cfg.windowMs) ts 1 hin, hshift]
  · rw [h1, runChecks_live_window cfg (t0 + cfg.windowMs) ts 1 hin]
    simp only [Option.some.injEq, RateLimitWindow.mk.injEq]
    repeat' apply And.intro
    all_goals first
      | trivial
      | omega

/-- Witness for C3 (amended): three checks against the interaction limiter
inside one window. -/
theorem rateLimiter_window_spec_witness :
    (∀ t ∈ [1, 2], t < 0 + interactionLimit.windowMs) ∧
    (runChecks interactionLimit none [0, 1, 2]).2 =
      (List.range 3).map (fun k =>
        if k + 1 ≤ interactionLimit.max then AdmissionResult.admitted
        else .rateLimited ((interactionLimit.windowMs + 999) / 1000)
          interactionLimit.max) := by
  have hin : ∀ t ∈ [1, 2], t < 0 + interactionLimit.windowMs := by decide
  exact ⟨hin, (rateLimiter_window_spec interactionLimit 0 [1, 2] hin).1⟩

set_option maxRecDepth 4000

/-- Counterexample for C3 as stated: against the interaction limiter
(window 60000 ms, max 30), thirty admitted checks at time 0 and a 31st
check at time 30000 get a rejection whose retry-after is the constant 60
seconds, while the remaining TTL of the window expiring at 60000 is
30000 ms = 30 s, so retry-after does not equal the remaining TTL. -/
theorem rateLimiter_retry_after_counterexample :
    (runChecks interactionLimit none
        (List.replicate 30 0 ++ [30000])).1 =
      some { count := 31, expiresAt := 60000 } ∧
    ((runChecks interactionLimit none
        (List.replicate 30 0 ++ [30000])).2).getLast? =
      some (.rateLimited 60 30) ∧
    (60 : ℕ) * 1000 ≠ 60000 - 30000 := by
  refine ⟨?_, ?_, ?_⟩ <;> decide

end VirusProtocol

